import Mathlib

/-!
Verification of the receipt ingestion-and-verification pipeline of the
o1-pro-template-system repository.

The repository contains two historical schema variants of the receipts
feature (see the design notes of the specification):

* the current snapshot (namespace `V2` below): `src/db/schema/receipts-schema.ts`
  (columns `userId`, `imageUrl`, `vendor`, `date`, `amount`, `currency`,
  `categoryId`, `status`) together with the receipts actions file embedded
  from `src/unnamed/part_006` (`createReceiptAction`, `updateReceiptAction`,
  `deleteReceiptAction`, `bulkUploadAction`) and
  `src/actions/confirm-receipt-action.ts`;

* the legacy snapshot (namespace `V1` below):
  `src/actions/db/receipts-actions.ts` (columns `merchant`, `storagePath`,
  `verified`, flat `category`) together with
  `src/actions/storage/receipts-storage-actions.ts` and
  `src/actions/extract-receipt-actions.ts`.

External collaborators (Supabase storage, the OpenAI extraction model, the
Postgres clock and error behaviour, JavaScript `Date` parsing and number
rendering) are modelled as explicit oracle inputs: per-call boolean error
flags, an `ActionState` holding the extraction outcome, a timestamp, and
function parameters `jsToISO` (the partial `new Date(s).toISOString()`
conversion, `none` modelling a throwing/invalid date) and `numToString`
(JavaScript number rendering).
-/

/-- The `ActionState` result type of `src/types` used by every server action:
`{ isSuccess, message, data? }`. -/
structure ActionState (α : Type) where
  isSuccess : Bool
  message : String
  data : Option α
deriving DecidableEq

/-- Success result, as built by the actions on their happy path. -/
def ActionState.ok {α : Type} (message : String) (a : α) : ActionState α :=
  ⟨true, message, some a⟩

/-- Failure result: `{ isSuccess: false, message }` (no `data`). -/
def ActionState.fail {α : Type} (message : String) : ActionState α :=
  ⟨false, message, none⟩

/-- JavaScript string truthiness on a nullable string: `null` and the empty
string are falsy (used for `vendor || null` and `date ? _ : null`). -/
def optTruthy (s : Option String) : Option String :=
  match s with
  | none => none
  | some v => if v = "" then none else some v

namespace V2

/-- A row of the `receipts` table of `src/db/schema/receipts-schema.ts`.
`id` (a generated uuid) and the timestamps are modelled as naturals; the
`date` column holds the ISO date string handed to the driver; `amount` is
the string value the `numeric` column receives. -/
structure Receipt where
  id : Nat
  userId : String
  imageUrl : String
  vendor : Option String
  date : Option String
  amount : Option String
  currency : String
  categoryId : Option Nat
  status : String
  createdAt : Nat
  updatedAt : Nat
deriving DecidableEq

/-- `InsertReceipt` of the current schema: the values an insert supplies;
`currency` defaults to `"USD"` and `status` to `"unverified"` when absent
(column defaults of the schema). -/
structure InsertReceipt where
  userId : String
  imageUrl : String
  vendor : Option String := none
  date : Option String := none
  amount : Option String := none
  currency : Option String := none
  categoryId : Option Nat := none
  status : Option String := none
deriving DecidableEq

/-- The receipts table state: rows plus the generator for the next row id. -/
structure Db where
  rows : List Receipt
  nextId : Nat
deriving DecidableEq

/-- `db.insert(receiptsTable).values(d).returning()`: appends a row with a
generated id, the column defaults, and `createdAt = updatedAt = now`. -/
def insertRow (db : Db) (d : InsertReceipt) (now : Nat) : Db × Receipt :=
  let row : Receipt :=
    { id := db.nextId
      userId := d.userId
      imageUrl := d.imageUrl
      vendor := d.vendor
      date := d.date
      amount := d.amount
      currency := d.currency.getD "USD"
      categoryId := d.categoryId
      status := d.status.getD "unverified"
      createdAt := now
      updatedAt := now }
  (⟨db.rows ++ [row], db.nextId + 1⟩, row)

/-- `createReceiptAction` of the current receipts actions file (a plain
insert); `dbError` is the oracle for a failing insert. -/
def createReceiptAction (receiptData : InsertReceipt) (db : Db) (now : Nat)
    (dbError : Bool) : Db × ActionState Receipt :=
  if dbError then
    (db, .fail "Failed to create receipt.")
  else
    let (db2, row) := insertRow db receiptData now
    (db2, .ok "Receipt created successfully." row)

/-- `Partial<InsertReceipt>` as passed to `updateReceiptAction` and
`confirmReceiptAction`: every column optionally present; for nullable
columns the inner `Option` is the supplied value-or-null. -/
structure ReceiptPatch where
  userId : Option String := none
  imageUrl : Option String := none
  vendor : Option (Option String) := none
  date : Option (Option String) := none
  amount : Option (Option String) := none
  currency : Option String := none
  categoryId : Option (Option Nat) := none
  status : Option String := none
deriving DecidableEq

/-- `.set(data)` on one row: exactly the supplied fields are written;
`updatedAt` is refreshed by the `$onUpdate` hook of the schema. -/
def applyPatch (r : Receipt) (p : ReceiptPatch) (now : Nat) : Receipt :=
  { r with
    userId := p.userId.getD r.userId
    imageUrl := p.imageUrl.getD r.imageUrl
    vendor := p.vendor.getD r.vendor
    date := p.date.getD r.date
    amount := p.amount.getD r.amount
    currency := p.currency.getD r.currency
    categoryId := p.categoryId.getD r.categoryId
    status := p.status.getD r.status
    updatedAt := now }

/-- Row match of the update/delete `where` clause:
`and(eq(receiptsTable.id, receiptId), eq(receiptsTable.userId, userId))`. -/
def ownedBy (receiptId : Nat) (userId : String) (r : Receipt) : Bool :=
  r.id == receiptId && r.userId == userId

/-- `updateReceiptAction(receiptId, data, userId)` of the current receipts
actions file: updates the rows matching both the id and the owner, returns
the updated row, or the not-found-or-no-permission failure when no row
matches. -/
def updateReceiptAction (receiptId : Nat) (data : ReceiptPatch) (userId : String)
    (db : Db) (now : Nat) : Db × ActionState Receipt :=
  let rows2 := db.rows.map fun r =>
    if ownedBy receiptId userId r then applyPatch r data now else r
  match db.rows.find? (ownedBy receiptId userId) with
  | none =>
      (⟨rows2, db.nextId⟩,
        .fail "Receipt not found or you don\x27t have permission to update it.")
  | some r =>
      (⟨rows2, db.nextId⟩, .ok "Receipt updated successfully." (applyPatch r data now))

/-- `deleteReceiptAction(receiptId, userId)` of the current receipts actions
file: deletes the rows matching both the id and the owner; failure when
nothing matched. -/
def deleteReceiptAction (receiptId : Nat) (userId : String) (db : Db) :
    Db × ActionState Unit :=
  let deleted := db.rows.filter (ownedBy receiptId userId)
  let rows2 := db.rows.filter fun r => !(ownedBy receiptId userId r)
  if deleted.isEmpty then
    (⟨rows2, db.nextId⟩,
      .fail "Receipt not found or you don\x27t have permission to delete it.")
  else
    (⟨rows2, db.nextId⟩, .ok "Receipt deleted successfully." ())

/-- `confirmReceiptAction(receiptId, data)` of
`src/actions/confirm-receipt-action.ts`: requires a Clerk session
(`authUserId`), then delegates to `updateReceiptAction` with the
authenticated user as owner. The caller-supplied `data` is passed through
unchanged. -/
def confirmReceiptAction (authUserId : Option String) (receiptId : Nat)
    (data : ReceiptPatch) (db : Db) (now : Nat) : Db × ActionState Receipt :=
  match authUserId with
  | none => (db, .fail "You must be signed in to verify a receipt.")
  | some userId => updateReceiptAction receiptId data userId db now

end V2

namespace V2

/-- `ExtractedReceiptData` of the extraction action embedded from
`src/unnamed/part_004` (`extract-receipt-action.ts`): the Zod-validated
structured output `{ vendor, date, amount, currency }`. The JavaScript
number is modelled as a rational. -/
structure ExtractedReceiptData where
  vendor : Option String
  date : Option String
  amount : Option Rat
  currency : String
deriving DecidableEq

/-- One file of a bulk-upload batch together with the oracle outcomes of the
external services consulted while processing it: the Supabase upload and
signed-URL calls, the extraction call (whose result is the full
`ActionState` returned by `extractReceiptDataAction`), the DB insert, and
the `Date.now()` reading used in the storage path. -/
structure FileJob where
  name : String
  type : String
  size : Nat
  timestamp : Nat
  uploadError : Bool
  signedUrlError : Bool
  extraction : ActionState ExtractedReceiptData
  insertError : Bool
deriving DecidableEq

/-- Character sanitizer of `bulkUploadAction`: `replace(/[^a-zA-Z0-9-_]/g, "_")`
(with `.` additionally kept for file names). -/
def sanChar (keepDot : Bool) (c : Char) : Char :=
  if c.isAlphanum || c = '-' || c = '_' || (keepDot && c = '.') then c else '_'

/-- `userId.replace(/[^a-zA-Z0-9-_]/g, "_")`. -/
def sanitizeUserId (s : String) : String := String.mk (s.toList.map (sanChar false))

/-- `file.name.replace(/[^a-zA-Z0-9-_.]/g, "_")`. -/
def sanitizeFileName (s : String) : String := String.mk (s.toList.map (sanChar true))

/-- The storage path `${sanitizedUserId}/${Date.now()}_${sanitizedFileName}`
built by `bulkUploadAction` for one file. -/
def storagePathOf (userId : String) (j : FileJob) : String :=
  sanitizeUserId userId ++ "/" ++ toString j.timestamp ++ "_" ++ sanitizeFileName j.name

/-- Combined durable state of the pipeline: the receipts table and the set
of object paths present in the storage bucket. -/
structure PipeState where
  db : Db
  objects : List String
deriving DecidableEq

/-- The fields bulk upload takes from the extraction result: on
`extraction.isSuccess && extraction.data` the extracted values, otherwise
the defaults `null/null/null/"USD"`. -/
def extractedOf (j : FileJob) : Option String × Option String × Option Rat × String :=
  match j.extraction.isSuccess, j.extraction.data with
  | true, some d => (d.vendor, d.date, d.amount, d.currency)
  | _, _ => (none, none, none, "USD")

/-- The `date` value of the new receipt:
`date ? new Date(date).toISOString() : null`. The outer `none` models the
`RangeError` thrown by `toISOString()` on an invalid date, which the
per-file `catch` of the loop absorbs. -/
def dateFieldOf (jsToISO : String → Option String) (date : Option String) :
    Option (Option String) :=
  match optTruthy date with
  | none => some none
  | some d =>
      match jsToISO d with
      | some iso => some (some iso)
      | none => none

/-- The body of the `for await (const file of files)` loop of
`bulkUploadAction`: upload (with `upsert: false`), signed URL, extraction,
insert with `status = "unverified"`. Every failure path of the body ends
the file (`continue` or the per-file `catch`) and returns `none`. -/
def processFile (jsToISO : String → Option String) (numToString : Rat → String)
    (userId : String) (s : PipeState) (j : FileJob) : PipeState × Option Receipt :=
  let path := storagePathOf userId j
  if j.uploadError || path ∈ s.objects then
    (s, none)
  else
    let s1 : PipeState := ⟨s.db, s.objects ++ [path]⟩
    if j.signedUrlError then
      (s1, none)
    else
      let (vendor, date, amount, currency) := extractedOf j
      match dateFieldOf jsToISO date with
      | none => (s1, none)
      | some dateVal =>
          let newReceipt : InsertReceipt :=
            { userId := userId
              imageUrl := path
              vendor := optTruthy vendor
              date := dateVal
              amount := amount.map numToString
              currency := some currency
              status := some "unverified" }
          let (db2, res) := createReceiptAction newReceipt s1.db j.timestamp j.insertError
          match res.isSuccess, res.data with
          | true, some row => (⟨db2, s1.objects⟩, some row)
          | _, _ => (⟨db2, s1.objects⟩, none)

/-- The whole file loop: threads the state and accumulates the receipts of
the files whose pipeline succeeded, in order. -/
def bulkLoop (jsToISO : String → Option String) (numToString : Rat → String)
    (userId : String) : PipeState → List FileJob → PipeState × List Receipt
  | s, [] => (s, [])
  | s, j :: rest =>
      let (s1, created?) := processFile jsToISO numToString userId s j
      let (s2, created) := bulkLoop jsToISO numToString userId s1 rest
      (s2, created?.toList ++ created)

/-- `BulkUploadResult`: the data returned by `bulkUploadAction` — only the
created receipts. -/
structure BulkUploadResult where
  createdReceipts : List Receipt
deriving DecidableEq

/-- `bulkUploadAction(files, userId)` embedded from `src/unnamed/part_006`:
guards on an empty batch and a missing user, runs the per-file loop, and
always reports success with the created-count message. -/
def bulkUploadAction (jsToISO : String → Option String) (numToString : Rat → String)
    (jobs : List FileJob) (userId : String) (s : PipeState) :
    PipeState × ActionState BulkUploadResult :=
  if jobs.isEmpty then
    (s, .fail "No files provided for bulk upload.")
  else if userId = "" then
    (s, .fail "No userId provided. Bulk upload cannot proceed.")
  else
    let (s2, created) := bulkLoop jsToISO numToString userId s jobs
    (s2,
      .ok ("Bulk upload complete. Created " ++ toString created.length ++ " receipts.")
        ⟨created⟩)

/-- `uploadReceiptsAction(formData)` of `src/actions/upload-receipts-action.ts`:
Clerk auth check, files-present check, then delegation to `bulkUploadAction`,
passing its message and data through. -/
def uploadReceiptsAction (jsToISO : String → Option String) (numToString : Rat → String)
    (authUserId : Option String) (jobs : List FileJob) (s : PipeState) :
    PipeState × ActionState BulkUploadResult :=
  match authUserId with
  | none => (s, .fail "You must be signed in to upload receipts.")
  | some userId =>
      if jobs.isEmpty then
        (s, .fail "No files found in form data.")
      else
        let (s2, res) := bulkUploadAction jsToISO numToString jobs userId s
        if res.isSuccess then (s2, res) else (s2, .fail res.message)

end V2

/-- The result of JavaScript `parseFloat`: `NaN`, a signed infinity, or a
finite value (modelled exactly as a rational). -/
inductive JsNum where
  | nan : JsNum
  | inf : Bool → JsNum
  | fin : Rat → JsNum
deriving DecidableEq

/-- JavaScript `Number.prototype.toString` on a `parseFloat` result:
`"NaN"`, `"Infinity"`/`"-Infinity"`, or the rendering of the finite value
(rendering of finite doubles is the oracle `numToString`). -/
def jsNumToString (numToString : Rat → String) : JsNum → String
  | .nan => "NaN"
  | .inf neg => if neg then "-Infinity" else "Infinity"
  | .fin q => numToString q

/-- JavaScript whitespace skipped by `parseFloat`. -/
def isJsWs (c : Char) : Bool :=
  c == ' ' || c == '\t' || c == '\n' || c == '\r' || c == '\x0b' || c == '\x0c'

/-- JavaScript `String.prototype.trim`: strip leading and trailing
whitespace (the ASCII whitespace set of `isJsWs`). -/
def jsTrim (s : String) : String :=
  String.mk (((s.toList.dropWhile isJsWs).reverse.dropWhile isJsWs).reverse)

/-- Decimal digits to a natural. -/
def digitsToNat (l : List Char) : Nat :=
  l.foldl (fun n c => 10 * n + (c.toNat - 48)) 0

/-- Ten to a natural power, as a rational. -/
def pow10 (n : Nat) : Rat := ((10 ^ n : Nat) : Rat)

/-- Scale a rational by a signed power of ten (the exponent part of a
parsed float literal). -/
def applyExp (q : Rat) (e : Int) : Rat :=
  if 0 ≤ e then q * pow10 e.toNat else q / pow10 (-e).toNat

/-- JavaScript `parseFloat`: skips leading whitespace, reads an optional
sign, `Infinity`, or the longest decimal-literal prefix
(`digits[.digits][e[sign]digits]`, a trailing exponent without digits being
ignored); `NaN` when no digit is found. -/
def jsParseFloat (s : String) : JsNum :=
  let l := s.toList.dropWhile isJsWs
  let (neg, l1) :=
    match l with
    | '-' :: r => (true, r)
    | '+' :: r => (false, r)
    | _ => (false, l)
  if l1.take 8 = "Infinity".toList then .inf neg
  else
    let (ip, r1) := l1.span Char.isDigit
    let (fp, r2) :=
      match r1 with
      | '.' :: rest => rest.span Char.isDigit
      | _ => ([], r1)
    if ip.isEmpty && fp.isEmpty then .nan
    else
      let mant : Rat := (digitsToNat ip : Rat) + (digitsToNat fp : Rat) / pow10 fp.length
      let e : Int :=
        match r2 with
        | c :: rest =>
            if c == 'e' || c == 'E' then
              let (esign, r3) :=
                match rest with
                | '-' :: rr => ((-1 : Int), rr)
                | '+' :: rr => ((1 : Int), rr)
                | _ => ((1 : Int), rest)
              let ed := r3.takeWhile Char.isDigit
              if ed.isEmpty then 0 else esign * (digitsToNat ed : Int)
            else 0
        | [] => 0
      .fin (if neg then -(applyExp mant e) else applyExp mant e)

/-- `amount.replace(/[$,]/g, "")`: drop every dollar sign and comma. -/
def stripDollarComma (s : String) : String :=
  String.mk (s.toList.filter fun c => !(c == '$' || c == ','))

namespace V1

/-- A row of the legacy receipts schema variant. The schema file of this
variant is not part of the snapshot; the columns are the ones
`src/actions/db/receipts-actions.ts` reads and writes (`userId`,
`storagePath`, `merchant`, `date`, `amount`, `category`, `verified`),
matching the naming note of the specification design notes. -/
structure Receipt where
  id : Nat
  userId : String
  storagePath : String
  merchant : Option String
  date : Option String
  amount : Option String
  category : Option String
  verified : Bool
  createdAt : Nat
  updatedAt : Nat
deriving DecidableEq

/-- The legacy receipts table state. -/
structure Db where
  rows : List Receipt
  nextId : Nat
deriving DecidableEq

/-- A file as the storage gateway sees it: MIME type and byte size. -/
structure StoredFile where
  type : String
  size : Nat
deriving DecidableEq

/-- `ALLOWED_TYPES` of `src/actions/storage/receipts-storage-actions.ts`. -/
def ALLOWED_TYPES : List String := ["image/png", "image/jpeg"]

/-- `MAX_FILE_SIZE` (10 MiB) of the storage actions file. -/
def MAX_FILE_SIZE : Nat := 10 * 1024 * 1024

/-- `uploadReceiptFileStorage(bucket, path, file)`: validates size then MIME
type before any storage call, then uploads with `upsert: false` (an object
already present at the path is an error). `backendError` is the oracle for
a Supabase failure. Returns the result and the new bucket contents. -/
def uploadReceiptFileStorage (bucket path : String) (file : StoredFile)
    (store : List String) (backendError : Bool) : ActionState String × List String :=
  if file.size > MAX_FILE_SIZE then
    (.fail "File size exceeds 10MB limit.", store)
  else if file.type ∉ ALLOWED_TYPES then
    (.fail "Invalid file type. Only PNG and JPEG images are allowed.", store)
  else if backendError || path ∈ store then
    (.fail "Failed to upload file", store)
  else
    (.ok "File uploaded successfully." path, store ++ [path])

/-- `deleteReceiptFileStorage(bucket, path)`: `remove([path])` on the
bucket; on a backend error nothing is removed. -/
def deleteReceiptFileStorage (bucket path : String) (store : List String)
    (backendError : Bool) : ActionState Unit × List String :=
  if backendError then
    (.fail "Failed to delete file", store)
  else
    (.ok "File deleted successfully" (), store.filter fun p => p ≠ path)

/-- `Partial<InsertReceipt>` of the legacy schema, as consumed by the legacy
`updateReceiptAction`; `date` holds the raw value handed in. -/
structure InsertPartial where
  merchant : Option String := none
  date : Option String := none
  amount : Option String := none
  category : Option String := none
  verified : Option Bool := none
  userId : Option String := none
  storagePath : Option String := none
deriving DecidableEq

/-- The per-row effect of the legacy `updateReceiptAction`: copy each
supplied non-date field (including `userId` and `storagePath`); for `date`,
a truthy raw value that parses is written, an unparseable one is silently
skipped (the `isNaN` branch assigns nothing). -/
def applyPartial (jsToISO : String → Option String) (data : InsertPartial)
    (r : Receipt) (now : Nat) : Receipt :=
  let dateUpd : Option String :=
    match data.date with
    | none => none
    | some d => if d = "" then none else jsToISO d
  { r with
    merchant := data.merchant <|> r.merchant
    amount := data.amount <|> r.amount
    category := data.category <|> r.category
    verified := data.verified.getD r.verified
    userId := data.userId.getD r.userId
    storagePath := data.storagePath.getD r.storagePath
    date := dateUpd <|> r.date
    updatedAt := now }

/-- The legacy `updateReceiptAction(id, data)`: updates by id only (no owner
filter), returning the updated row or a not-found failure. -/
def updateReceiptAction (jsToISO : String → Option String) (id : Nat)
    (data : InsertPartial) (db : Db) (now : Nat) : Db × ActionState Receipt :=
  let rows2 := db.rows.map fun r =>
    if r.id == id then applyPartial jsToISO data r now else r
  match db.rows.find? (fun r => r.id == id) with
  | none => (⟨rows2, db.nextId⟩, .fail "No receipt found with given ID")
  | some r =>
      (⟨rows2, db.nextId⟩, .ok "Receipt updated successfully" (applyPartial jsToISO data r now))

/-- The legacy `deleteReceiptAction(id)`: deletes by id only. -/
def deleteReceiptAction (id : Nat) (db : Db) (dbError : Bool) : Db × ActionState Unit :=
  if dbError then (db, .fail "Failed to delete receipt")
  else
    let deleted := db.rows.filter fun r => r.id == id
    let rows2 := db.rows.filter fun r => !(r.id == id)
    if deleted.isEmpty then
      (⟨rows2, db.nextId⟩, .fail "No receipt found to delete")
    else
      (⟨rows2, db.nextId⟩, .ok "Receipt deleted successfully" ())

/-- `getReceiptByIdAction(userId, receiptId)`: the ownership lookup,
filtering by both the owner and the id. -/
def getReceiptByIdAction (userId : String) (receiptId : Nat) (db : Db) :
    ActionState Receipt :=
  match db.rows.find? (fun r => r.userId == userId && r.id == receiptId) with
  | none => .fail "No matching receipt found"
  | some r => .ok "Receipt retrieved successfully" r

/-- The argument object of `verifyAndUpdateReceiptAction`. -/
structure VerifyData where
  id : Nat
  merchant : Option String := none
  date : Option String := none
  amount : Option String := none
  category : Option String := none
  verified : Option Bool := none
deriving DecidableEq

/-- The partial update `verifyAndUpdateReceiptAction` builds from its
argument: `merchant`/`amount`/`category` trimmed, `verified` copied, a
non-blank `date` validated (`none` result models the `"Invalid date
format"` rejection). No `userId` field is ever set. -/
def verifyBuildUpdateData (jsToISO : String → Option String) (data : VerifyData) :
    Option InsertPartial :=
  let base : InsertPartial :=
    { merchant := data.merchant.map jsTrim
      amount := data.amount.map jsTrim
      category := data.category.map jsTrim
      verified := data.verified }
  match data.date with
  | none => some base
  | some d =>
      if jsTrim d = "" then some base
      else
        match jsToISO d with
        | some _ => some { base with date := some d }
        | none => none

/-- `verifyAndUpdateReceiptAction(data)`: Clerk auth, ownership check via
`getReceiptByIdAction`, build the partial update, delegate to the legacy
`updateReceiptAction`. -/
def verifyAndUpdateReceiptAction (jsToISO : String → Option String)
    (authUserId : Option String) (data : VerifyData) (db : Db) (now : Nat) :
    Db × ActionState Receipt :=
  match authUserId with
  | none => (db, .fail "Not authenticated")
  | some userId =>
      if (getReceiptByIdAction userId data.id db).isSuccess then
        match verifyBuildUpdateData jsToISO data with
        | none => (db, .fail "Invalid date format")
        | some upd => updateReceiptAction jsToISO data.id upd db now
      else
        (db, .fail "Receipt not found or not owned by user")

/-- The extraction result of `src/actions/extract-receipt-actions.ts`
(`{ merchant, date, amount }`, all strings). -/
structure ExtractedData where
  merchant : String
  date : String
  amount : String
deriving DecidableEq

/-- Oracle outcomes of the external calls made by the legacy
`createReceiptAction`: the generated uuid, the storage backend, the
extraction action result, and the DB insert. -/
structure CreateEnv where
  uuid : String
  storageBackendError : Bool
  extraction : ActionState ExtractedData
  insertError : Bool
deriving DecidableEq

/-- `createReceiptAction(file, userId)` of the legacy receipts actions file:
validates the user and the MIME type, uploads via
`uploadReceiptFileStorage`, fails outright when extraction fails, cleans the
amount with `parseFloat(amount.replace(/[$,]/g, "")).toString()` (an
unparseable amount therefore becomes the string `"NaN"`), and inserts the
row with `verified: false`. Returns the bucket contents, the table and the
result. -/
def createReceiptAction (jsToISO : String → Option String) (numToString : Rat → String)
    (file : StoredFile) (userId : String) (env : CreateEnv) (store : List String)
    (db : Db) (now : Nat) : List String × Db × ActionState Receipt :=
  if userId = "" then (store, db, .fail "Missing file or userId")
  else if jsTrim userId = "" then (store, db, .fail "Invalid userId")
  else
    match (if file.type = "image/png" then some "png"
           else if file.type = "image/jpeg" then some "jpg" else none) with
    | none => (store, db, .fail "Unsupported file type. Only PNG and JPEG are allowed.")
    | some ext =>
        let path := userId ++ "/" ++ env.uuid ++ "." ++ ext
        let (upRes, store2) :=
          uploadReceiptFileStorage "receipts" path file store env.storageBackendError
        if !upRes.isSuccess then
          (store2, db, .fail ("File upload failed: " ++ upRes.message))
        else
          match env.extraction.isSuccess, env.extraction.data with
          | true, some d =>
              let cleanAmount : Option String :=
                if d.amount = "" then none
                else some (jsNumToString numToString (jsParseFloat (stripDollarComma d.amount)))
              let dateVal : Option (Option String) :=
                if d.date = "" then some none
                else
                  match jsToISO d.date with
                  | some iso => some (some iso)
                  | none => none
              match dateVal with
              | none => (store2, db, .fail "An unknown error occurred in createReceiptAction")
              | some dval =>
                  if env.insertError then
                    (store2, db, .fail "An unknown error occurred in createReceiptAction")
                  else
                    let row : Receipt :=
                      { id := db.nextId
                        userId := userId
                        storagePath := path
                        merchant := some d.merchant
                        date := dval
                        amount := cleanAmount
                        category := none
                        verified := false
                        createdAt := now
                        updatedAt := now }
                    (store2, ⟨db.rows ++ [row], db.nextId + 1⟩,
                      .ok "Receipt uploaded and AI-extracted successfully" row)
          | _, _ => (store2, db, .fail ("AI extraction failed: " ++ env.extraction.message))

end V1

namespace Pipeline

/-- The ownership lookup of `deleteReceiptWithOwnershipCheckAction`, read
over the current schema rows (`storagePath` of the legacy schema is
`imageUrl` of the current one, per the naming note of the specification
design notes). -/
def getReceiptById (userId : String) (receiptId : Nat) (db : V2.Db) :
    Option V2.Receipt :=
  db.rows.find? fun r => r.userId == userId && r.id == receiptId

/-- The DB half of the owner delete (the legacy `deleteReceiptAction(id)`:
delete by id only, the ownership check having been done by the caller). -/
def deleteReceiptDb (receiptId : Nat) (db : V2.Db) (dbError : Bool) :
    V2.Db × ActionState Unit :=
  if dbError then (db, .fail "Failed to delete receipt")
  else
    let deleted := db.rows.filter fun r => r.id == receiptId
    let rows2 := db.rows.filter fun r => !(r.id == receiptId)
    if deleted.isEmpty then
      (⟨rows2, db.nextId⟩, .fail "No receipt found to delete")
    else
      (⟨rows2, db.nextId⟩, .ok "Receipt deleted successfully" ())

/-- `deleteReceiptWithOwnershipCheckAction(receiptId)` of the legacy
receipts actions file over the combined pipeline state: auth, ownership
check, storage blob removal first, DB row removal second. A storage
failure aborts before the row is touched; a DB failure after a successful
blob removal leaves the row in place. -/
def deleteReceiptWithOwnershipCheckAction (authUserId : Option String)
    (receiptId : Nat) (s : V2.PipeState) (storageError dbError : Bool) :
    V2.PipeState × ActionState Unit :=
  match authUserId with
  | none => (s, .fail "Not authenticated")
  | some userId =>
      match getReceiptById userId receiptId s.db with
      | none => (s, .fail "Receipt not found or not owned by user")
      | some r =>
          let (stRes, objects2) :=
            V1.deleteReceiptFileStorage "receipts" r.imageUrl s.objects storageError
          if !stRes.isSuccess then
            (⟨s.db, objects2⟩,
              .fail ("Failed to delete file from storage: " ++ stRes.message))
          else
            let (db2, dbRes) := deleteReceiptDb receiptId s.db dbError
            if !dbRes.isSuccess then
              (⟨db2, objects2⟩,
                .fail ("Failed to delete receipt record: " ++ dbRes.message))
            else
              (⟨db2, objects2⟩, .ok "Receipt fully deleted" ())

/-- States of the combined stores reachable from the empty deployment by
the claim-relevant operations: batch ingestion and owner-initiated delete
(with arbitrary oracle outcomes for the external services). -/
inductive Reach (f : String → Option String) (g : Rat → String) : V2.PipeState → Prop where
  | init : Reach f g ⟨⟨[], 0⟩, []⟩
  | bulk (s : V2.PipeState) (jobs : List V2.FileJob) (userId : String) :
      Reach f g s → Reach f g (V2.bulkUploadAction f g jobs userId s).1
  | del (s : V2.PipeState) (auth : Option String) (rid : Nat) (se de : Bool) :
      Reach f g s → Reach f g (deleteReceiptWithOwnershipCheckAction auth rid s se de).1

/-- The storage-reference invariant of the specification: every stored row
points at an object present in the bucket. -/
def storageRefInvariant (s : V2.PipeState) : Prop :=
  ∀ r ∈ s.db.rows, r.imageUrl ∈ s.objects

/-- The invariant together with distinctness of the storage references of
the rows (which ingestion maintains thanks to `upsert: false`). -/
def goodState (s : V2.PipeState) : Prop :=
  storageRefInvariant s ∧ s.db.rows.Pairwise fun a b => a.imageUrl ≠ b.imageUrl

instance (s : V2.PipeState) : Decidable (storageRefInvariant s) := by
  unfold storageRefInvariant; infer_instance

instance (s : V2.PipeState) : Decidable (goodState s) := by
  unfold goodState; infer_instance

end Pipeline

section Helpers

/-- A map whose function fixes every element of the list is the identity. -/
theorem list_map_id_of {α : Type} (l : List α) (fn : α → α)
    (h : ∀ a ∈ l, fn a = a) : l.map fn = l := by
  induction l with
  | nil => rfl
  | cons a t ih =>
      simp only [List.map_cons, h a (List.mem_cons_self a t)]
      exact congrArg (a :: ·) (ih fun b hb => h b (List.mem_cons_of_mem a hb))

/-- `find?` misses when the predicate holds nowhere in the list. -/
theorem list_find?_eq_none_of {α : Type} (l : List α) (p : α → Bool)
    (h : ∀ a ∈ l, p a = false) : l.find? p = none := by
  rw [List.find?_eq_none]
  intro x hx
  simp [h x hx]

/-- The `where` clause of the owner-scoped update/delete matches no row of a
table in which the caller owns no row with the given id. -/
theorem ownedBy_eq_false_iff (rid : Nat) (uid : String) (r : V2.Receipt) :
    V2.ownedBy rid uid r = false ↔ ¬(r.id = rid ∧ r.userId = uid) := by
  simp [V2.ownedBy]

end Helpers

/-- A concrete verified-pipeline fixture row of the current schema. -/
def sampleReceipt : V2.Receipt :=
  { id := 0
    userId := "u1"
    imageUrl := "u1/5_a.png"
    vendor := none
    date := none
    amount := none
    currency := "USD"
    categoryId := none
    status := "unverified"
    createdAt := 5
    updatedAt := 5 }

/-- A one-row table owned by `"u1"`. -/
def sampleDb : V2.Db := ⟨[sampleReceipt], 1⟩

/-- A concrete fixture row of the legacy schema. -/
def sampleReceiptV1 : V1.Receipt :=
  { id := 0
    userId := "u1"
    storagePath := "u1/x.png"
    merchant := none
    date := none
    amount := none
    category := none
    verified := false
    createdAt := 0
    updatedAt := 0 }

/-- A one-row legacy table owned by `"u1"`. -/
def sampleDbV1 : V1.Db := ⟨[sampleReceiptV1], 1⟩

/-- C1: an update, delete or confirm whose caller owns no row with the given
id (whether the id is absent or owned by someone else) returns the single
undifferentiated not-found-or-forbidden failure and leaves the table
unchanged; in particular `confirmReceiptAction` invoked by an authenticated
non-owner never mutates the receipt. Likewise for the legacy
`verifyAndUpdateReceiptAction`. -/
theorem C1_ownership_enforced (db : V2.Db) (dbv : V1.Db) (rid : Nat)
    (p : V2.ReceiptPatch) (vd : V1.VerifyData) (caller : String) (now : Nat)
    (f : String → Option String)
    (h : ∀ r ∈ db.rows, ¬(r.id = rid ∧ r.userId = caller))
    (hv : ∀ r ∈ dbv.rows, ¬(r.id = vd.id ∧ r.userId = caller)) :
    V2.updateReceiptAction rid p caller db now
      = (db, .fail "Receipt not found or you don\x27t have permission to update it.")
    ∧ V2.deleteReceiptAction rid caller db
      = (db, .fail "Receipt not found or you don\x27t have permission to delete it.")
    ∧ V2.confirmReceiptAction (some caller) rid p db now
      = (db, .fail "Receipt not found or you don\x27t have permission to update it.")
    ∧ V1.verifyAndUpdateReceiptAction f (some caller) vd dbv now
      = (dbv, .fail "Receipt not found or not owned by user") := by
  have hb : ∀ r ∈ db.rows, V2.ownedBy rid caller r = false := fun r hr =>
    (ownedBy_eq_false_iff rid caller r).mpr (h r hr)
  have hmap : (db.rows.map fun r =>
      if V2.ownedBy rid caller r then V2.applyPatch r p now else r) = db.rows :=
    list_map_id_of _ _ fun r hr => by simp [hb r hr]
  have hfind : db.rows.find? (V2.ownedBy rid caller) = none :=
    list_find?_eq_none_of _ _ hb
  have hupd : V2.updateReceiptAction rid p caller db now
      = (db, .fail "Receipt not found or you don\x27t have permission to update it.") := by
    simp [V2.updateReceiptAction, hmap, hfind]
  have hdel : V2.deleteReceiptAction rid caller db
      = (db, .fail "Receipt not found or you don\x27t have permission to delete it.") := by
    have h1 : db.rows.filter (V2.ownedBy rid caller) = [] := by
      rw [List.filter_eq_nil_iff]
      intro r hr
      simp [hb r hr]
    have h2 : db.rows.filter (fun r => !(V2.ownedBy rid caller r)) = db.rows := by
      rw [List.filter_eq_self]
      intro r hr
      simp [hb r hr]
    simp [V2.deleteReceiptAction, h1, h2]
  have hver : V1.verifyAndUpdateReceiptAction f (some caller) vd dbv now
      = (dbv, .fail "Receipt not found or not owned by user") := by
    have hfindv : dbv.rows.find? (fun r => r.userId == caller && r.id == vd.id) = none := by
      refine list_find?_eq_none_of _ _ fun r hr => ?_
      have := hv r hr
      simp only [Bool.and_eq_false_iff, beq_eq_false_iff_ne, ne_eq]
      by_cases h1 : r.userId = caller
      · exact Or.inr fun h2 => this ⟨h2, h1⟩
      · exact Or.inl h1
    simp [V1.verifyAndUpdateReceiptAction, V1.getReceiptByIdAction, hfindv, ActionState.fail]
  exact ⟨hupd, hdel, by simpa [V2.confirmReceiptAction] using hupd, hver⟩

/-- C1 witness: the caller `"u2"` attacks the receipt with id `0`, which
exists but is owned by `"u1"`: all four operations fail undifferentiated and
the tables are unchanged. -/
theorem C1_ownership_enforced_witness :
    V2.updateReceiptAction 0 {} "u2" sampleDb 9
      = (sampleDb, .fail "Receipt not found or you don\x27t have permission to update it.")
    ∧ V2.deleteReceiptAction 0 "u2" sampleDb
      = (sampleDb, .fail "Receipt not found or you don\x27t have permission to delete it.")
    ∧ V2.confirmReceiptAction (some "u2") 0 {} sampleDb 9
      = (sampleDb, .fail "Receipt not found or you don\x27t have permission to update it.")
    ∧ V1.verifyAndUpdateReceiptAction (fun _ => none) (some "u2") ⟨0, none, none, none, none, none⟩ sampleDbV1 9
      = (sampleDbV1, .fail "Receipt not found or not owned by user") :=
  C1_ownership_enforced sampleDb sampleDbV1 0 {} ⟨0, none, none, none, none, none⟩
    "u2" 9 (fun _ => none) (by decide) (by decide)

/-- C2: `confirmReceiptAction` does not force `status = "verified"`; it
passes the caller-supplied fields through to the update, so an owner who
supplies `status: "unverified"` gets a successful confirm whose stored
status is `"unverified"` — contradicting both the specification and the
header comment of the action file itself, which says the action sets the
status to verified. Evaluated at the failing input. -/
theorem C2_confirm_does_not_force_verified :
    (V2.confirmReceiptAction (some "u1") 0 { status := some "unverified" } sampleDb 9).2.isSuccess
      = true
    ∧ ((V2.confirmReceiptAction (some "u1") 0 { status := some "unverified" } sampleDb 9).1.rows.map
        (fun r => r.status)) = ["unverified"]
    ∧ ((V2.confirmReceiptAction (some "u1") 0 { status := some "unverified" } sampleDb 9).2.data.map
        (fun r => r.status)) = some "unverified" := by
  decide

/-- C8 counterexample: a caller-supplied partial-fields object containing a
`userId` value reassigns the owner. The owner `"u1"` confirms their own
receipt with `data = { userId: "u2" }`: the call succeeds and the owner
stored on the row becomes `"u2"`; the legacy `updateReceiptAction` copies a
supplied `userId` the same way. -/
theorem C8_counterexample_owner_reassigned :
    (V2.confirmReceiptAction (some "u1") 0 { userId := some "u2" } sampleDb 9).2.isSuccess = true
    ∧ ((V2.confirmReceiptAction (some "u1") 0 { userId := some "u2" } sampleDb 9).1.rows.map
        (fun r => r.userId)) = ["u2"]
    ∧ ((V1.updateReceiptAction (fun _ => none) 0 { userId := some "u2" } sampleDbV1 9).1.rows.map
        (fun r => r.userId)) = ["u2"]
    ∧ sampleReceipt.userId = "u1" ∧ sampleReceiptV1.userId = "u1" := by
  decide


/-- The partial update built by `verifyAndUpdateReceiptAction` never carries
a `userId` field. -/
theorem verifyBuildUpdateData_userId (f : String → Option String) (vd : V1.VerifyData)
    (upd : V1.InsertPartial) (h : V1.verifyBuildUpdateData f vd = some upd) :
    upd.userId = none := by
  rcases hd : vd.date with _ | d
  · simp only [V1.verifyBuildUpdateData, hd, Option.some.injEq] at h
    subst h
    rfl
  · simp only [V1.verifyBuildUpdateData, hd] at h
    by_cases ht : jsTrim d = ""
    · rw [if_pos ht] at h
      injection h with h
      subst h
      rfl
    · rw [if_neg ht] at h
      rcases hf : f d with _ | iso
      · rw [hf] at h
        cases h
      · rw [hf] at h
        injection h with h
        subst h
        rfl

/-- C8 amended: the owner column is preserved by `updateReceiptAction` and
`confirmReceiptAction` exactly when the caller-supplied patch omits
`userId` (a supplied `userId` is applied like any other column, see the
counterexample), and `verifyAndUpdateReceiptAction` always preserves it
because the patch it builds never contains `userId`. -/
theorem C8_amended_owner_preserved (db : V2.Db) (rid : Nat) (p : V2.ReceiptPatch)
    (caller : String) (now : Nat) (hp : p.userId = none) :
    ((V2.updateReceiptAction rid p caller db now).1.rows.map fun r => r.userId)
      = db.rows.map (fun r => r.userId)
    ∧ ((V2.confirmReceiptAction (some caller) rid p db now).1.rows.map fun r => r.userId)
      = db.rows.map (fun r => r.userId)
    ∧ ∀ (f : String → Option String) (authU : Option String) (vd : V1.VerifyData)
        (dbv : V1.Db) (n2 : Nat),
        ((V1.verifyAndUpdateReceiptAction f authU vd dbv n2).1.rows.map fun r => r.userId)
          = dbv.rows.map fun r => r.userId := by
  have key : ∀ r : V2.Receipt,
      (if V2.ownedBy rid caller r = true then V2.applyPatch r p now else r).userId
        = r.userId := by
    intro r
    by_cases hc : V2.ownedBy rid caller r = true
    · simp [hc, V2.applyPatch, hp]
    · simp [hc]
  have hrows : (V2.updateReceiptAction rid p caller db now).1.rows
      = db.rows.map fun r =>
          if V2.ownedBy rid caller r = true then V2.applyPatch r p now else r := by
    unfold V2.updateReceiptAction
    cases db.rows.find? (V2.ownedBy rid caller) <;> simp
  have hmap : ((V2.updateReceiptAction rid p caller db now).1.rows.map fun r => r.userId)
      = db.rows.map fun r => r.userId := by
    rw [hrows, List.map_map]
    simp only [Function.comp_def, key]
  refine ⟨hmap, by simpa [V2.confirmReceiptAction] using hmap, ?_⟩
  intro f authU vd dbv n2
  cases authU with
  | none => simp [V1.verifyAndUpdateReceiptAction]
  | some uid =>
      simp only [V1.verifyAndUpdateReceiptAction]
      by_cases hown : (V1.getReceiptByIdAction uid vd.id dbv).isSuccess = true
      · rw [if_pos hown]
        rcases hbuild : V1.verifyBuildUpdateData f vd with _ | upd
        · simp
        · have hu : upd.userId = none := verifyBuildUpdateData_userId f vd upd hbuild
          have keyv : ∀ r : V1.Receipt,
              (if (r.id == vd.id) = true then V1.applyPartial f upd r n2 else r).userId
                = r.userId := by
            intro r
            by_cases hc : (r.id == vd.id) = true
            · simp [hc, V1.applyPartial, hu]
            · simp [hc]
          have hrowsv : (V1.updateReceiptAction f vd.id upd dbv n2).1.rows
              = dbv.rows.map fun r =>
                  if (r.id == vd.id) = true then V1.applyPartial f upd r n2 else r := by
            unfold V1.updateReceiptAction
            cases dbv.rows.find? (fun r => r.id == vd.id) <;> simp
          rw [hrowsv, List.map_map]
          simp only [Function.comp_def, keyv]
      · rw [if_neg hown]

/-- C8 amended witness: a confirm patch without `userId` leaves the owner
`"u1"` in place, in all three operations. -/
theorem C8_amended_owner_preserved_witness :
    ((V2.updateReceiptAction 0 { status := some "verified" } "u1" sampleDb 9).1.rows.map
        fun r => r.userId) = ["u1"]
    ∧ ((V2.confirmReceiptAction (some "u1") 0 { status := some "verified" } sampleDb 9).1.rows.map
        fun r => r.userId) = ["u1"]
    ∧ ((V1.verifyAndUpdateReceiptAction (fun s => some s) (some "u1")
        ⟨0, none, none, some "12.00", none, some true⟩ sampleDbV1 9).1.rows.map
        fun r => r.userId) = ["u1"] := by
  obtain ⟨h1, h2, h3⟩ :=
    C8_amended_owner_preserved sampleDb 0 { status := some "verified" } "u1" 9 rfl
  refine ⟨?_, ?_, ?_⟩
  · rw [h1]; rfl
  · rw [h2]; rfl
  · rw [h3 (fun s => some s) (some "u1") ⟨0, none, none, some "12.00", none, some true⟩
      sampleDbV1 9]
    rfl

/-- C9: the amount conversion of the legacy `createReceiptAction` does strip
dollar signs and commas, but an input with no parseable numeric prefix is
not rejected: `parseFloat("abc").toString()` makes the stored amount the
string `"NaN"` and the action still succeeds. The manual-edit path
(`verifyAndUpdateReceiptAction`) performs no stripping or validation at
all: the built update carries the trimmed raw string. Evaluated at the
failing inputs `amount = "abc"` (creation) and `amount = " 1,234.50 "`
(manual edit). -/
theorem C9_unparseable_amount_not_rejected :
    stripDollarComma "$1,234.50" = "1234.50"
    ∧ jsParseFloat "abc" = JsNum.nan
    ∧ (V1.createReceiptAction (fun _ => none) (fun q => toString q.num) ⟨"image/png", 100⟩ "u1"
        ⟨"id1", false, .ok "Receipt data extracted successfully" ⟨"Shop", "", "abc"⟩, false⟩
        [] ⟨[], 0⟩ 7).2.2.isSuccess = true
    ∧ ((V1.createReceiptAction (fun _ => none) (fun q => toString q.num) ⟨"image/png", 100⟩ "u1"
        ⟨"id1", false, .ok "Receipt data extracted successfully" ⟨"Shop", "", "abc"⟩, false⟩
        [] ⟨[], 0⟩ 7).2.1.rows.map fun r => r.amount) = [some "NaN"]
    ∧ ((V1.verifyBuildUpdateData (fun _ => none) { id := 0, amount := some " 1,234.50 " }).map
        fun u => u.amount) = some (some "1,234.50") := by
  refine ⟨by decide, by decide, by decide, by decide, by decide⟩

/-- A batch file whose Supabase upload fails. -/
def uploadFailJob : V2.FileJob :=
  { name := "a.png"
    type := "image/png"
    size := 100
    timestamp := 5
    uploadError := true
    signedUrlError := false
    extraction := .fail "extraction not reached"
    insertError := false }

/-- A batch file whose upload succeeds but whose DB insert fails. -/
def insertFailJob : V2.FileJob :=
  { name := "a.png"
    type := "image/png"
    size := 100
    timestamp := 5
    uploadError := false
    signedUrlError := false
    extraction := .fail "boom"
    insertError := true }

/-- An invalid batch file: 20 MiB and `application/pdf`. -/
def pdfJob : V2.FileJob :=
  { name := "doc.pdf"
    type := "application/pdf"
    size := 20 * 1024 * 1024
    timestamp := 3
    uploadError := false
    signedUrlError := false
    extraction := .fail "refused"
    insertError := false }

/-- C10: for every non-empty batch with a non-empty user id,
`bulkUploadAction` returns `isSuccess = true` whatever happened to the
individual files; the result carries only the created receipts and the
created-count message. -/
theorem C10_bulk_always_reports_success (f : String → Option String) (g : Rat → String)
    (jobs : List V2.FileJob) (userId : String) (s : V2.PipeState)
    (hjobs : ¬jobs.isEmpty = true) (huser : ¬userId = "") :
    (V2.bulkUploadAction f g jobs userId s).2
      = .ok ("Bulk upload complete. Created "
            ++ toString (V2.bulkLoop f g userId s jobs).2.length ++ " receipts.")
          ⟨(V2.bulkLoop f g userId s jobs).2⟩ := by
  unfold V2.bulkUploadAction
  rw [if_neg hjobs, if_neg huser]

/-- C10 witness: a one-file batch whose only file fails at upload still
yields overall success, with zero created receipts and only the count in
the message. -/
theorem C10_bulk_always_reports_success_witness :
    (V2.bulkUploadAction (fun _ => none) (fun _ => "") [uploadFailJob] "u1" ⟨⟨[], 0⟩, []⟩).2
      = .ok "Bulk upload complete. Created 0 receipts." ⟨[]⟩ :=
  (C10_bulk_always_reports_success (fun _ => none) (fun _ => "") [uploadFailJob] "u1"
    ⟨⟨[], 0⟩, []⟩ (by decide) (by decide)).trans (by decide)

/-- C4 counterexample: `bulkUploadAction` returns no per-file failure list.
Two batches whose single file fails for different reasons at different
stages (upload failure versus DB-insert failure) produce identical results,
so the caller cannot identify which stage failed or why; the result type
carries only `createdReceipts`. -/
theorem C4_counterexample_failures_indistinguishable :
    (V2.bulkUploadAction (fun _ => none) (fun _ => "") [uploadFailJob] "u1" ⟨⟨[], 0⟩, []⟩).2
      = (V2.bulkUploadAction (fun _ => none) (fun _ => "") [insertFailJob] "u1" ⟨⟨[], 0⟩, []⟩).2
    ∧ uploadFailJob ≠ insertFailJob := by
  decide

/-- C4 amended: the result of `bulkUploadAction` is a function of the
created-receipts list (and batch emptiness) alone — per-file failures are
only logged, never returned, so any two runs producing the same created
list are indistinguishable to the caller. -/
theorem C4_amended_result_depends_only_on_created (f : String → Option String)
    (g : Rat → String) (userId : String) (sA sB : V2.PipeState)
    (jobsA jobsB : List V2.FileJob)
    (hcreated : (V2.bulkLoop f g userId sA jobsA).2 = (V2.bulkLoop f g userId sB jobsB).2)
    (hempty : jobsA.isEmpty = jobsB.isEmpty) :
    (V2.bulkUploadAction f g jobsA userId sA).2
      = (V2.bulkUploadAction f g jobsB userId sB).2 := by
  unfold V2.bulkUploadAction
  by_cases he : jobsB.isEmpty = true
  · have heA : jobsA.isEmpty = true := by rw [hempty]; exact he
    rw [if_pos heA, if_pos he]
  · have heA : ¬jobsA.isEmpty = true := by rw [hempty]; exact he
    rw [if_neg heA, if_neg he]
    by_cases hu : userId = ""
    · rw [if_pos hu, if_pos hu]
    · rw [if_neg hu, if_neg hu]
      rcases hA : V2.bulkLoop f g userId sA jobsA with ⟨s2A, cA⟩
      rcases hB : V2.bulkLoop f g userId sB jobsB with ⟨s2B, cB⟩
      have hc : cA = cB := by
        rw [hA, hB] at hcreated
        exact hcreated
      simp [hA, hB, hc]

/-- C4 amended witness: the upload-failure batch and the insert-failure
batch both produce the empty created list, hence the very same result. -/
theorem C4_amended_result_depends_only_on_created_witness :
    (V2.bulkUploadAction (fun _ => none) (fun _ => "") [uploadFailJob] "u1" ⟨⟨[], 0⟩, []⟩).2
      = (V2.bulkUploadAction (fun _ => none) (fun _ => "") [insertFailJob] "u1" ⟨⟨[], 0⟩, []⟩).2 :=
  C4_amended_result_depends_only_on_created (fun _ => none) (fun _ => "") "u1"
    ⟨⟨[], 0⟩, []⟩ ⟨⟨[], 0⟩, []⟩ [uploadFailJob] [insertFailJob] (by decide) (by decide)

/-- C6 counterexample: the batch-ingestion path performs no size or MIME
validation. A 20 MiB `application/pdf` file is written to storage and
yields one created receipt — not a `ValidationError` before any storage
write and zero receipts, as claimed. -/
theorem C6_counterexample_bulk_skips_validation :
    ((V2.bulkUploadAction (fun _ => none) (fun _ => "") [pdfJob] "u1" ⟨⟨[], 0⟩, []⟩).2.data.map
        fun d => d.createdReceipts.length) = some 1
    ∧ (V2.bulkUploadAction (fun _ => none) (fun _ => "") [pdfJob] "u1" ⟨⟨[], 0⟩, []⟩).1.objects
        = ["u1/3_doc.pdf"]
    ∧ pdfJob.size > V1.MAX_FILE_SIZE ∧ pdfJob.type ∉ V1.ALLOWED_TYPES := by
  decide

/-- C6 amended: the single-file storage gateway `uploadReceiptFileStorage`
does reject an oversized or non-PNG/JPEG file before any storage write
(the bucket contents are untouched for every backend behaviour); the bulk
ingestion path performs no such validation (see the counterexample). -/
theorem C6_amended_storage_gateway_validates (bucket path : String)
    (file : V1.StoredFile) (store : List String) (backendError : Bool)
    (h : file.size > V1.MAX_FILE_SIZE ∨ file.type ∉ V1.ALLOWED_TYPES) :
    (V1.uploadReceiptFileStorage bucket path file store backendError).1.isSuccess = false
    ∧ (V1.uploadReceiptFileStorage bucket path file store backendError).2 = store := by
  unfold V1.uploadReceiptFileStorage
  rcases h with h | h
  · rw [if_pos h]
    exact ⟨rfl, rfl⟩
  · by_cases hs : file.size > V1.MAX_FILE_SIZE
    · rw [if_pos hs]
      exact ⟨rfl, rfl⟩
    · rw [if_neg hs, if_pos h]
      exact ⟨rfl, rfl⟩

/-- C6 amended witness: a PDF upload through the storage gateway fails and
writes nothing, even with a healthy backend. -/
theorem C6_amended_storage_gateway_validates_witness :
    (V1.uploadReceiptFileStorage "receipts" "u1/x.pdf" ⟨"application/pdf", 100⟩ [] false).1.isSuccess
      = false
    ∧ (V1.uploadReceiptFileStorage "receipts" "u1/x.pdf" ⟨"application/pdf", 100⟩ [] false).2
      = [] :=
  C6_amended_storage_gateway_validates "receipts" "u1/x.pdf" ⟨"application/pdf", 100⟩ [] false
    (Or.inr (by decide))

/-- A batch file whose upload and insert succeed but whose extraction
fails. -/
def extractFailJob : V2.FileJob :=
  { name := "b.png"
    type := "image/png"
    size := 50
    timestamp := 8
    uploadError := false
    signedUrlError := false
    extraction := .fail "model refused"
    insertError := false }

/-- C5: a file whose upload and signed URL succeed but whose extraction
fails (error, refusal or unvalidatable response — any unsuccessful
`ActionState`) is not failed: the per-file pipeline still inserts exactly
one receipt with `vendor = null`, `date = null`, `amount = null`,
`currency = "USD"`, `status = "unverified"` (provided the insert itself
and the path-freshness of the upload hold). -/
theorem C5_extraction_failure_degrades (f : String → Option String) (g : Rat → String)
    (userId : String) (s : V2.PipeState) (j : V2.FileJob)
    (hfresh : V2.storagePathOf userId j ∉ s.objects)
    (hup : j.uploadError = false) (hsig : j.signedUrlError = false)
    (hext : j.extraction.isSuccess = false ∨ j.extraction.data = none)
    (hins : j.insertError = false) :
    ∃ r : V2.Receipt,
      (V2.processFile f g userId s j).2 = some r
      ∧ r.vendor = none ∧ r.date = none ∧ r.amount = none
      ∧ r.currency = "USD" ∧ r.status = "unverified"
      ∧ (V2.processFile f g userId s j).1.db.rows = s.db.rows ++ [r] := by
  have hex : V2.extractedOf j = (none, none, none, "USD") := by
    rcases hext with h | h
    · cases hdata : j.extraction.data <;> simp [V2.extractedOf, h, hdata]
    · cases hsucc : j.extraction.isSuccess <;> simp [V2.extractedOf, h, hsucc]
  have hcond : (j.uploadError || decide (V2.storagePathOf userId j ∈ s.objects)) = false := by
    simp [hup, hfresh]
  refine ⟨{ id := s.db.nextId
            userId := userId
            imageUrl := V2.storagePathOf userId j
            vendor := none
            date := none
            amount := none
            currency := "USD"
            categoryId := none
            status := "unverified"
            createdAt := j.timestamp
            updatedAt := j.timestamp }, ?_, rfl, rfl, rfl, rfl, rfl, ?_⟩ <;>
    simp [V2.processFile, hcond, hsig, hex, hins, V2.dateFieldOf, optTruthy,
      V2.createReceiptAction, V2.insertRow, ActionState.ok]

/-- C5 witness: the degraded receipt produced for a concrete
extraction-failure file in an empty deployment. -/
theorem C5_extraction_failure_degrades_witness :
    ∃ r : V2.Receipt,
      (V2.processFile (fun _ => none) (fun _ => "") "u1" ⟨⟨[], 0⟩, []⟩ extractFailJob).2 = some r
      ∧ r.vendor = none ∧ r.date = none ∧ r.amount = none
      ∧ r.currency = "USD" ∧ r.status = "unverified"
      ∧ (V2.processFile (fun _ => none) (fun _ => "") "u1" ⟨⟨[], 0⟩, []⟩ extractFailJob).1.db.rows
          = [] ++ [r] :=
  C5_extraction_failure_degrades (fun _ => none) (fun _ => "") "u1" ⟨⟨[], 0⟩, []⟩
    extractFailJob (by decide) (by decide) (by decide) (Or.inl (by decide)) (by decide)

/-- Case analysis of the per-file pipeline step: either the file is skipped
with the state untouched (upload failure), or it is skipped after the
upload wrote its object (signed-URL, date-conversion or insert failure), or
it succeeds, appending exactly one row whose `imageUrl` is the freshly
written storage path. -/
theorem processFile_cases (f : String → Option String) (g : Rat → String)
    (userId : String) (s : V2.PipeState) (j : V2.FileJob) :
    V2.processFile f g userId s j = (s, none)
    ∨ ((V2.processFile f g userId s j).1.db = s.db
        ∧ (V2.processFile f g userId s j).1.objects
            = s.objects ++ [V2.storagePathOf userId j]
        ∧ (V2.processFile f g userId s j).2 = none
        ∧ V2.storagePathOf userId j ∉ s.objects)
    ∨ (∃ row : V2.Receipt,
        V2.storagePathOf userId j ∉ s.objects
        ∧ V2.processFile f g userId s j
            = (⟨⟨s.db.rows ++ [row], s.db.nextId + 1⟩,
                s.objects ++ [V2.storagePathOf userId j]⟩, some row)
        ∧ row.imageUrl = V2.storagePathOf userId j
        ∧ row.id = s.db.nextId
        ∧ row.userId = userId
        ∧ row.status = "unverified") := by
  by_cases hup : (j.uploadError || decide (V2.storagePathOf userId j ∈ s.objects)) = true
  · left
    simp only [V2.processFile]
    rw [if_pos hup]
  · have hmem : V2.storagePathOf userId j ∉ s.objects := fun hm => hup (by simp [hm])
    by_cases hsig : j.signedUrlError = true
    · have hres : V2.processFile f g userId s j
          = (⟨s.db, s.objects ++ [V2.storagePathOf userId j]⟩, none) := by
        simp only [V2.processFile]
        rw [if_neg hup, if_pos hsig]
      exact Or.inr (Or.inl ⟨by rw [hres], by rw [hres], by rw [hres], hmem⟩)
    · rcases hex : V2.extractedOf j with ⟨vendor, date, amount, currency⟩
      rcases hdf : V2.dateFieldOf f date with _ | dateVal
      · have hres : V2.processFile f g userId s j
            = (⟨s.db, s.objects ++ [V2.storagePathOf userId j]⟩, none) := by
          simp only [V2.processFile]
          rw [if_neg hup, if_neg hsig]
          simp only [hex, hdf]
        exact Or.inr (Or.inl ⟨by rw [hres], by rw [hres], by rw [hres], hmem⟩)
      · by_cases hins : j.insertError = true
        · have hres : V2.processFile f g userId s j
              = (⟨s.db, s.objects ++ [V2.storagePathOf userId j]⟩, none) := by
            simp only [V2.processFile]
            rw [if_neg hup, if_neg hsig]
            simp only [hex, hdf, V2.createReceiptAction]
            rw [if_pos hins]
            rfl
          exact Or.inr (Or.inl ⟨by rw [hres], by rw [hres], by rw [hres], hmem⟩)
        · refine Or.inr (Or.inr ⟨{ id := s.db.nextId, userId := userId, imageUrl := V2.storagePathOf userId j, vendor := optTruthy vendor, date := dateVal, amount := amount.map g, currency := currency, categoryId := none, status := "unverified", createdAt := j.timestamp, updatedAt := j.timestamp }, hmem, ?_, rfl, rfl, rfl, rfl⟩)
          simp only [V2.processFile]
          rw [if_neg hup, if_neg hsig]
          simp only [hex, hdf, V2.createReceiptAction]
          rw [if_neg hins]
          simp [V2.insertRow, ActionState.ok]

/-- A step of the loop can only add its own storage path to the bucket. -/
theorem processFile_objects_sub (f : String → Option String) (g : Rat → String)
    (userId : String) (s : V2.PipeState) (j : V2.FileJob) :
    ∀ p ∈ (V2.processFile f g userId s j).1.objects,
      p ∈ s.objects ∨ p = V2.storagePathOf userId j := by
  intro p hp
  rcases processFile_cases f g userId s j with h | ⟨_, hobj, _, _⟩ | ⟨row, _, heq, _⟩
  · rw [h] at hp
    exact Or.inl hp
  · rw [hobj] at hp
    rcases List.mem_append.mp hp with h1 | h1
    · exact Or.inl h1
    · exact Or.inr (List.mem_singleton.mp h1)
  · rw [heq] at hp
    rcases List.mem_append.mp hp with h1 | h1
    · exact Or.inl h1
    · exact Or.inr (List.mem_singleton.mp h1)

/-- Every object present after a run of the loop was either present before
or is the storage path of one of the processed files. -/
theorem bulkLoop_objects (f : String → Option String) (g : Rat → String)
    (userId : String) : ∀ (js : List V2.FileJob) (s : V2.PipeState),
    ∀ p ∈ (V2.bulkLoop f g userId s js).1.objects,
      p ∈ s.objects ∨ ∃ k ∈ js, p = V2.storagePathOf userId k := by
  intro js
  induction js with
  | nil =>
      intro s p hp
      exact Or.inl hp
  | cons j t ih =>
      intro s p hp
      rcases hstep : V2.processFile f g userId s j with ⟨s1, created?⟩
      have hp1 : p ∈ (V2.bulkLoop f g userId s1 t).1.objects := by
        simpa [V2.bulkLoop, hstep] using hp
      rcases ih s1 p hp1 with h | ⟨k, hk, hpk⟩
      · rcases processFile_objects_sub f g userId s j p (by rw [hstep]; exact h) with
          h2 | h2
        · exact Or.inl h2
        · exact Or.inr ⟨j, by simp, h2⟩
      · exact Or.inr ⟨k, by simp [hk], hpk⟩

/-- Splitting a batch: the loop threads the state through and concatenates
the created receipts. -/
theorem bulkLoop_append (f : String → Option String) (g : Rat → String)
    (userId : String) (xs ys : List V2.FileJob) : ∀ s : V2.PipeState,
    V2.bulkLoop f g userId s (xs ++ ys)
      = ((V2.bulkLoop f g userId (V2.bulkLoop f g userId s xs).1 ys).1,
          (V2.bulkLoop f g userId s xs).2
            ++ (V2.bulkLoop f g userId (V2.bulkLoop f g userId s xs).1 ys).2) := by
  induction xs with
  | nil =>
      intro s
      simp [V2.bulkLoop]
  | cons j t ih =>
      intro s
      rcases hstep : V2.processFile f g userId s j with ⟨s1, created?⟩
      simp [V2.bulkLoop, hstep, ih s1, List.append_assoc]

/-- A file whose own pipeline is healthy (fresh path, no upload, signed-URL
or insert failure, and a convertible or absent extracted date) always
yields a created receipt pointing at its own storage path. -/
theorem processFile_success (f : String → Option String) (g : Rat → String)
    (userId : String) (s : V2.PipeState) (j : V2.FileJob)
    (hfresh : V2.storagePathOf userId j ∉ s.objects)
    (hup : j.uploadError = false) (hsig : j.signedUrlError = false)
    (hins : j.insertError = false)
    (hdate : V2.dateFieldOf f (V2.extractedOf j).2.1 ≠ none) :
    ∃ row : V2.Receipt, (V2.processFile f g userId s j).2 = some row
      ∧ row.imageUrl = V2.storagePathOf userId j ∧ row.userId = userId
      ∧ row.status = "unverified" := by
  have hcond : (j.uploadError || decide (V2.storagePathOf userId j ∈ s.objects)) = false := by
    simp [hup, hfresh]
  rcases hex : V2.extractedOf j with ⟨vendor, date, amount, currency⟩
  have hdate2 : V2.dateFieldOf f date ≠ none := by
    rw [hex] at hdate
    exact hdate
  rcases hdf : V2.dateFieldOf f date with _ | dateVal
  · exact absurd hdf hdate2
  · refine ⟨{ id := s.db.nextId, userId := userId, imageUrl := V2.storagePathOf userId j, vendor := optTruthy vendor, date := dateVal, amount := amount.map g, currency := currency, categoryId := none, status := "unverified", createdAt := j.timestamp, updatedAt := j.timestamp }, ?_, rfl, rfl, rfl⟩
    simp [V2.processFile, hcond, hsig, hex, hdf, hins, V2.createReceiptAction,
      V2.insertRow, ActionState.ok]

/-- C3: per-file failure isolation of batch ingestion. For every batch
`pre ++ j :: post` in which the file `j` has a fresh storage path (also
against the paths of the files before it) and a healthy own pipeline, the
batch result contains a receipt created from `j` — whatever failures the
sibling files suffer. -/
theorem C3_sibling_failure_never_suppresses (f : String → Option String)
    (g : Rat → String) (userId : String) (s0 : V2.PipeState)
    (pre post : List V2.FileJob) (j : V2.FileJob)
    (hfresh : V2.storagePathOf userId j ∉ s0.objects)
    (hpre : ∀ k ∈ pre, V2.storagePathOf userId k ≠ V2.storagePathOf userId j)
    (hup : j.uploadError = false) (hsig : j.signedUrlError = false)
    (hins : j.insertError = false)
    (hdate : V2.dateFieldOf f (V2.extractedOf j).2.1 ≠ none) :
    ∃ r ∈ (V2.bulkLoop f g userId s0 (pre ++ j :: post)).2,
      r.imageUrl = V2.storagePathOf userId j ∧ r.userId = userId
      ∧ r.status = "unverified" := by
  have hfresh1 : V2.storagePathOf userId j ∉ (V2.bulkLoop f g userId s0 pre).1.objects := by
    intro hm
    rcases bulkLoop_objects f g userId pre s0 _ hm with h | ⟨k, hk, hpk⟩
    · exact hfresh h
    · exact hpre k hk hpk.symm
  obtain ⟨row, hrow, h1, h2, h3⟩ :=
    processFile_success f g userId (V2.bulkLoop f g userId s0 pre).1 j
      hfresh1 hup hsig hins hdate
  refine ⟨row, ?_, h1, h2, h3⟩
  rw [bulkLoop_append f g userId pre (j :: post) s0]
  apply List.mem_append_right
  rcases hstep : V2.processFile f g userId (V2.bulkLoop f g userId s0 pre).1 j with
    ⟨s2, created?⟩
  have hcr : created? = some row := by
    rw [hstep] at hrow
    exact hrow
  simp [V2.bulkLoop, hstep, hcr]

/-- C3 witness: a batch whose first file fails at upload and whose second
file has a healthy pipeline (with failing extraction) still creates the
receipt of the second file. -/
theorem C3_sibling_failure_never_suppresses_witness :
    ∃ r ∈ (V2.bulkLoop (fun _ => none) (fun _ => "") "u1" ⟨⟨[], 0⟩, []⟩
        ([uploadFailJob] ++ extractFailJob :: [])).2,
      r.imageUrl = V2.storagePathOf "u1" extractFailJob ∧ r.userId = "u1"
      ∧ r.status = "unverified" :=
  C3_sibling_failure_never_suppresses (fun _ => none) (fun _ => "") "u1" ⟨⟨[], 0⟩, []⟩
    [uploadFailJob] [] extractFailJob (by decide) (by decide) (by decide) (by decide)
    (by decide) (by decide)

/-- One loop step preserves the storage-reference invariant together with
the distinctness of the stored paths. -/
theorem processFile_goodState (f : String → Option String) (g : Rat → String)
    (userId : String) (s : V2.PipeState) (j : V2.FileJob)
    (h : Pipeline.goodState s) :
    Pipeline.goodState (V2.processFile f g userId s j).1 := by
  obtain ⟨hinv, hpw⟩ := h
  rcases processFile_cases f g userId s j with
    heq | ⟨hdb, hobj, _, _⟩ | ⟨row, hmem, heq, hurl, _, _, _⟩
  · rw [heq]
    exact ⟨hinv, hpw⟩
  · refine ⟨?_, ?_⟩
    · intro r hr
      rw [hdb] at hr
      rw [hobj]
      exact List.mem_append_left _ (hinv r hr)
    · show (V2.processFile f g userId s j).1.db.rows.Pairwise _
      rw [hdb]
      exact hpw
  · rw [heq]
    refine ⟨?_, ?_⟩
    · intro r hr
      rcases List.mem_append.mp hr with h1 | h1
      · exact List.mem_append_left _ (hinv r h1)
      · rw [List.mem_singleton.mp h1, hurl]
        exact List.mem_append_right _ (List.mem_singleton_self _)
    · rw [List.pairwise_append]
      refine ⟨hpw, List.pairwise_singleton _ _, ?_⟩
      intro a ha b hb
      rw [List.mem_singleton.mp hb, hurl]
      intro hcontra
      exact hmem (hcontra ▸ hinv a ha)

/-- The whole loop preserves the invariant. -/
theorem bulkLoop_goodState (f : String → Option String) (g : Rat → String)
    (userId : String) : ∀ (js : List V2.FileJob) (s : V2.PipeState),
    Pipeline.goodState s → Pipeline.goodState (V2.bulkLoop f g userId s js).1 := by
  intro js
  induction js with
  | nil =>
      intro s h
      exact h
  | cons j t ih =>
      intro s h
      rcases hstep : V2.processFile f g userId s j with ⟨s1, created?⟩
      have h1 := processFile_goodState f g userId s j h
      rw [hstep] at h1
      have h2 := ih s1 h1
      simpa [V2.bulkLoop, hstep] using h2

/-- The owner-initiated delete preserves the invariant whenever the record
deletion does not fail (`dbError = false`), for every storage outcome. -/
theorem delete_goodState (s : V2.PipeState) (auth : Option String) (rid : Nat)
    (se : Bool) (h : Pipeline.goodState s) :
    Pipeline.goodState (Pipeline.deleteReceiptWithOwnershipCheckAction auth rid s se false).1 := by
  obtain ⟨hinv, hpw⟩ := h
  cases auth with
  | none => exact ⟨hinv, hpw⟩
  | some uid =>
      rcases hfind : Pipeline.getReceiptById uid rid s.db with _ | r
      · simp only [Pipeline.deleteReceiptWithOwnershipCheckAction, hfind]
        exact ⟨hinv, hpw⟩
      · by_cases hse : se = true
        · have hres : (Pipeline.deleteReceiptWithOwnershipCheckAction (some uid) rid s se false).1
              = ⟨s.db, s.objects⟩ := by
            simp only [Pipeline.deleteReceiptWithOwnershipCheckAction, hfind,
              V1.deleteReceiptFileStorage]
            rw [if_pos hse]
            rfl
          rw [hres]
          exact ⟨hinv, hpw⟩
        · have hrpred := List.find?_some hfind
          have hrrid : (r.id == rid) = true := by
            simp only [Bool.and_eq_true] at hrpred
            exact hrpred.2
          have hrmem : r ∈ s.db.rows := List.mem_of_find?_eq_some hfind
          have hne : (s.db.rows.filter fun x => x.id == rid).isEmpty = false := by
            have hin : r ∈ s.db.rows.filter fun x => x.id == rid :=
              List.mem_filter.mpr ⟨hrmem, hrrid⟩
            rcases hl : s.db.rows.filter fun x => x.id == rid with _ | ⟨a, t⟩
            · rw [hl] at hin
              cases hin
            · rw [hl]
              rfl
          have hres : (Pipeline.deleteReceiptWithOwnershipCheckAction (some uid) rid s se false).1
              = ⟨⟨s.db.rows.filter fun x => !(x.id == rid), s.db.nextId⟩,
                  s.objects.filter fun p => p ≠ r.imageUrl⟩ := by
            simp only [Pipeline.deleteReceiptWithOwnershipCheckAction, hfind,
              V1.deleteReceiptFileStorage]
            rw [if_neg hse]
            simp only [Pipeline.deleteReceiptDb, ActionState.ok, ActionState.fail,
              Bool.false_eq_true, if_false, hne]
            rfl
          rw [hres]
          have hsymm : Symmetric fun a b : V2.Receipt => a.imageUrl ≠ b.imageUrl :=
            fun a b hab => Ne.symm hab
          refine ⟨?_, ?_⟩
          · intro x hx
            have hx1 : x ∈ s.db.rows := (List.mem_filter.mp hx).1
            have hx2 : (!(x.id == rid)) = true := (List.mem_filter.mp hx).2
            have hxr : x ≠ r := by
              intro hcontra
              rw [hcontra] at hx2
              rw [hrrid] at hx2
              cases hx2
            have hxurl : x.imageUrl ≠ r.imageUrl :=
              hpw.forall hsymm hx1 hrmem hxr
            exact List.mem_filter.mpr ⟨hinv x hx1, by simpa using hxurl⟩
          · exact List.Pairwise.sublist (List.filter_sublist _) hpw

/-- C7 counterexample: a reachable state violating the storage-reference
invariant. One receipt is ingested successfully; its owner then deletes it
with a healthy storage backend but a failing DB delete: the blob is removed
first, the record deletion fails, and the surviving row points at a
non-existent object. -/
theorem C7_counterexample_dangling_row :
    Pipeline.Reach (fun _ => none) (fun _ => "")
      ((Pipeline.deleteReceiptWithOwnershipCheckAction (some "u1") 0
          (V2.bulkUploadAction (fun _ => none) (fun _ => "") [extractFailJob] "u1"
            ⟨⟨[], 0⟩, []⟩).1 false true).1)
    ∧ ¬Pipeline.storageRefInvariant
      ((Pipeline.deleteReceiptWithOwnershipCheckAction (some "u1") 0
          (V2.bulkUploadAction (fun _ => none) (fun _ => "") [extractFailJob] "u1"
            ⟨⟨[], 0⟩, []⟩).1 false true).1) := by
  constructor
  · exact Pipeline.Reach.del _ (some "u1") 0 false true
      (Pipeline.Reach.bulk _ [extractFailJob] "u1" Pipeline.Reach.init)
  · decide

/-- C7 amended: every receipt row committed by ingestion references an
object written by its own successful upload (and rows reference pairwise
distinct objects), and this invariant is preserved by batch ingestion
unconditionally and by the owner-initiated delete provided the record
deletion does not fail after the storage deletion; the storage-then-record
ordering makes the failing-record-delete case the one violation (see the
counterexample). -/
theorem C7_amended_invariant_preserved (f : String → Option String) (g : Rat → String) :
    (∀ (s : V2.PipeState) (jobs : List V2.FileJob) (userId : String),
      Pipeline.goodState s → Pipeline.goodState (V2.bulkUploadAction f g jobs userId s).1)
    ∧ (∀ (s : V2.PipeState) (auth : Option String) (rid : Nat) (se : Bool),
      Pipeline.goodState s →
        Pipeline.goodState
          (Pipeline.deleteReceiptWithOwnershipCheckAction auth rid s se false).1) := by
  constructor
  · intro s jobs userId h
    unfold V2.bulkUploadAction
    by_cases he : jobs.isEmpty = true
    · rw [if_pos he]
      exact h
    · rw [if_neg he]
      by_cases hu : userId = ""
      · rw [if_pos hu]
        exact h
      · rw [if_neg hu]
        have h2 := bulkLoop_goodState f g userId jobs s h
        rcases hbl : V2.bulkLoop f g userId s jobs with ⟨s2, created⟩
        rw [hbl] at h2
        simpa [hbl] using h2
  · intro s auth rid se h
    exact delete_goodState s auth rid se h

/-- C7 amended witness: ingesting one receipt from the empty deployment and
then deleting it with a healthy DB keeps the invariant. -/
theorem C7_amended_invariant_preserved_witness :
    Pipeline.goodState
      (V2.bulkUploadAction (fun _ => none) (fun _ => "") [extractFailJob] "u1"
        ⟨⟨[], 0⟩, []⟩).1
    ∧ Pipeline.goodState
      (Pipeline.deleteReceiptWithOwnershipCheckAction (some "u1") 0
        (V2.bulkUploadAction (fun _ => none) (fun _ => "") [extractFailJob] "u1"
          ⟨⟨[], 0⟩, []⟩).1 false false).1 := by
  have h1 := (C7_amended_invariant_preserved (fun _ => none) (fun _ => "")).1
    ⟨⟨[], 0⟩, []⟩ [extractFailJob] "u1" (by decide)
  have h2 := (C7_amended_invariant_preserved (fun _ => none) (fun _ => "")).2
    (V2.bulkUploadAction (fun _ => none) (fun _ => "") [extractFailJob] "u1"
      ⟨⟨[], 0⟩, []⟩).1 (some "u1") 0 false h1
  exact ⟨h1, h2⟩
